import Mathlib

/-!
Shallow embedding of `src/grammar/parse_tree.rs` (the lalrpop parse-tree
module): the grammar symbol algebra, the `TypeRef` type-expression model,
the nonterminal/grammar-item containers, and the canonical-form renderer
(the `Display` impls plus the `canonical_form` wrappers).

`InternedString` is modelled as `String` (the interning service is external
to this module and provides a deterministic text round-trip, so the rendered
output only ever sees the underlying text).
-/

namespace ParseTree

/-- Source span `Span(usize, usize)`: start and end byte offsets. -/
structure Span where
  start : Nat
  stop : Nat
deriving DecidableEq, Repr

/-- The repetition operator `RepeatOp`: `X*`, `X+`, `X?`. -/
inductive RepeatOp where
  | Star
  | Plus
  | Question
deriving DecidableEq, Repr

mutual

/-- The symbol algebra `Symbol` from the source: expression groups,
terminals, nonterminals, macro invocations, repetition, choose and name
markers. -/
inductive Symbol where
  | Expr : ExprSymbol → Symbol
  | Terminal : String → Symbol
  | Nonterminal : String → Symbol
  | Macro : MacroSymbol → Symbol
  | Repeat : RepeatSymbol → Symbol
  | Choose : Symbol → Symbol
  | Name : String → Symbol → Symbol

/-- `ExprSymbol`: a span plus an ordered sequence of symbols. -/
inductive ExprSymbol where
  | mk : Span → List Symbol → ExprSymbol

/-- `MacroSymbol`: a macro name, its argument symbols and a span. -/
inductive MacroSymbol where
  | mk : String → List Symbol → Span → MacroSymbol

/-- `RepeatSymbol`: an operator and the repeated symbol. -/
inductive RepeatSymbol where
  | mk : RepeatOp → Symbol → RepeatSymbol

end

/-- Field `span` of `ExprSymbol`. -/
def ExprSymbol.span : ExprSymbol → Span
  | .mk sp _ => sp

/-- Field `symbols` of `ExprSymbol`. -/
def ExprSymbol.symbols : ExprSymbol → List Symbol
  | .mk _ syms => syms

/-- Field `name` of `MacroSymbol`. -/
def MacroSymbol.name : MacroSymbol → String
  | .mk n _ _ => n

/-- Field `args` of `MacroSymbol`. -/
def MacroSymbol.args : MacroSymbol → List Symbol
  | .mk _ a _ => a

/-- Field `span` of `MacroSymbol`. -/
def MacroSymbol.span : MacroSymbol → Span
  | .mk _ _ sp => sp

/-- Field `op` of `RepeatSymbol`. -/
def RepeatSymbol.op : RepeatSymbol → RepeatOp
  | .mk o _ => o

/-- Field `symbol` of `RepeatSymbol`. -/
def RepeatSymbol.symbol : RepeatSymbol → Symbol
  | .mk _ s => s

/-- The `Display` impl for `RepeatOp`: the operator glyph. -/
def RepeatOp.fmt : RepeatOp → String
  | .Star => "*"
  | .Plus => "+"
  | .Question => "?"

/-- The helper `Sep(sep, vec)`: writes the first element, then each further
element preceded by the separator; nothing for an empty list. -/
def sepFmt (sep : String) : List String → String
  | [] => ""
  | x :: xs => xs.foldl (fun acc e => acc ++ sep ++ e) x

mutual

/-- The `Display` impl for `Symbol`. -/
def Symbol.fmt : Symbol → String
  | .Expr e => e.fmt
  | .Terminal s => "\"" ++ s ++ "\""
  | .Nonterminal s => s
  | .Macro m => m.fmt
  | .Repeat r => r.fmt
  | .Choose s => "~" ++ s.fmt
  | .Name n s => "~" ++ n ++ ":" ++ s.fmt

/-- The `Display` impl for `ExprSymbol`: `({})` around `Sep(" ", symbols)`. -/
def ExprSymbol.fmt : ExprSymbol → String
  | .mk _ syms => "(" ++ sepFmt " " (Symbol.fmtList syms) ++ ")"

/-- The `Display` impl for `MacroSymbol`: `{name}<{Sep(", ", args)}>`. -/
def MacroSymbol.fmt : MacroSymbol → String
  | .mk n args _ => n ++ "<" ++ sepFmt ", " (Symbol.fmtList args) ++ ">"

/-- The `Display` impl for `RepeatSymbol`: symbol then operator glyph. -/
def RepeatSymbol.fmt : RepeatSymbol → String
  | .mk op s => s.fmt ++ op.fmt

/-- Renders each symbol of a list (the iteration inside `Sep`). -/
def Symbol.fmtList : List Symbol → List String
  | [] => []
  | s :: ss => s.fmt :: Symbol.fmtList ss

end

/-- `Symbol::canonical_form`: `format!("{}", self)`. -/
def Symbol.canonical_form (s : Symbol) : String :=
  s.fmt

/-- `ExprSymbol::canonical_form`: `format!("{}", self)`. -/
def ExprSymbol.canonical_form (e : ExprSymbol) : String :=
  e.fmt

/-- `MacroSymbol::canonical_form`: `format!("{}", self)`. -/
def MacroSymbol.canonical_form (m : MacroSymbol) : String :=
  m.fmt

/-- The type-expression model `TypeRef`. -/
inductive TypeRef where
  | Tuple : List TypeRef → TypeRef
  | Nominal : List String → List TypeRef → TypeRef
  | Lifetime : String → TypeRef
  | Id : String → TypeRef
  | OfSymbol : Symbol → TypeRef

mutual

/-- The `Display` impl for `TypeRef`. -/
def TypeRef.fmt : TypeRef → String
  | .Tuple types => "(" ++ sepFmt ", " (TypeRef.fmtList types) ++ ")"
  | .Nominal path types =>
      if types.length = 0 then sepFmt "::" path
      else sepFmt "::" path ++ "<" ++ sepFmt ", " (TypeRef.fmtList types) ++ ">"
  | .Lifetime s => s
  | .Id s => s
  | .OfSymbol s => "`" ++ s.fmt ++ "`"

/-- Renders each type of a list (the iteration inside `Sep`). -/
def TypeRef.fmtList : List TypeRef → List String
  | [] => []
  | t :: ts => t.fmt :: TypeRef.fmtList ts

end

/-- `TokenTypeData`: external token enum path plus literal conversions. -/
structure TokenTypeData where
  type_name : TypeRef
  conversions : List (String × String)

/-- One of the four condition operators. -/
inductive ConditionOp where
  | Equals
  | NotEquals
  | Match
  | NotMatch

/-- A guard condition `X op "Foo"`. -/
structure Condition where
  span : Span
  lhs : String
  rhs : String
  op : ConditionOp

/-- A semantic action: user code or an index into a side table. -/
inductive Action where
  | User : String → Action
  | Fn : Nat → Action

/-- One alternative of a nonterminal. -/
structure Alternative where
  span : Span
  expr : ExprSymbol
  condition : Option Condition
  action : Option Action

/-- `NonterminalData`: name, macro parameters, declared type, alternatives. -/
structure NonterminalData where
  name : String
  args : List String
  type_decl : Option TypeRef
  alternatives : List Alternative

/-- A grammar item: token-type declaration or nonterminal declaration. -/
inductive GrammarItem where
  | TokenType : TokenTypeData → GrammarItem
  | Nonterminal : NonterminalData → GrammarItem

/-- The top-level `Grammar` container. -/
structure Grammar where
  type_name : TypeRef
  items : List GrammarItem

mutual

/-- Rewrites every span field of a symbol tree with `f`, leaving the tree
shape and all interned text untouched (used to state span independence). -/
def Symbol.mapSpans (f : Span → Span) : Symbol → Symbol
  | .Expr e => .Expr (e.mapSpans f)
  | .Terminal s => .Terminal s
  | .Nonterminal s => .Nonterminal s
  | .Macro m => .Macro (m.mapSpans f)
  | .Repeat r => .Repeat (r.mapSpans f)
  | .Choose s => .Choose (s.mapSpans f)
  | .Name n s => .Name n (s.mapSpans f)

/-- Rewrites every span field of an `ExprSymbol` with `f`. -/
def ExprSymbol.mapSpans (f : Span → Span) : ExprSymbol → ExprSymbol
  | .mk sp syms => .mk (f sp) (Symbol.mapSpansList f syms)

/-- Rewrites every span field of a `MacroSymbol` with `f`. -/
def MacroSymbol.mapSpans (f : Span → Span) : MacroSymbol → MacroSymbol
  | .mk n args sp => .mk n (Symbol.mapSpansList f args) (f sp)

/-- Rewrites every span field of a `RepeatSymbol` with `f`. -/
def RepeatSymbol.mapSpans (f : Span → Span) : RepeatSymbol → RepeatSymbol
  | .mk op s => .mk op (s.mapSpans f)

/-- Rewrites every span field of each symbol of a list with `f`. -/
def Symbol.mapSpansList (f : Span → Span) : List Symbol → List Symbol
  | [] => []
  | s :: ss => s.mapSpans f :: Symbol.mapSpansList f ss

end

mutual

/-- Node count of a symbol tree (a bound for the fuelled renderer). -/
def Symbol.size : Symbol → Nat
  | .Expr e => e.size + 1
  | .Terminal _ => 1
  | .Nonterminal _ => 1
  | .Macro m => m.size + 1
  | .Repeat r => r.size + 1
  | .Choose s => s.size + 1
  | .Name _ s => s.size + 1

/-- Node count of an `ExprSymbol`. -/
def ExprSymbol.size : ExprSymbol → Nat
  | .mk _ syms => Symbol.sizeList syms + 1

/-- Node count of a `MacroSymbol`. -/
def MacroSymbol.size : MacroSymbol → Nat
  | .mk _ args _ => Symbol.sizeList args + 1

/-- Node count of a `RepeatSymbol`. -/
def RepeatSymbol.size : RepeatSymbol → Nat
  | .mk _ s => s.size + 1

/-- Node count of a list of symbols. -/
def Symbol.sizeList : List Symbol → Nat
  | [] => 1
  | s :: ss => s.size + Symbol.sizeList ss + 1

end

mutual

/-- The renderer with an explicit recursion-depth budget: each layer of the
recursion consumes one unit of fuel and exhausted fuel yields `none`.  This
models the unbounded recursion of the `Display` impls so that termination
on every finite tree can be stated as the existence of sufficient fuel. -/
def Symbol.fmtFuel : Nat → Symbol → Option String
  | 0, _ => none
  | n + 1, .Expr e => ExprSymbol.fmtFuel n e
  | _ + 1, .Terminal s => some ("\"" ++ s ++ "\"")
  | _ + 1, .Nonterminal s => some s
  | n + 1, .Macro m => MacroSymbol.fmtFuel n m
  | n + 1, .Repeat r => RepeatSymbol.fmtFuel n r
  | n + 1, .Choose s => (Symbol.fmtFuel n s).map (fun r => "~" ++ r)
  | n + 1, .Name nm s => (Symbol.fmtFuel n s).map (fun r => "~" ++ nm ++ ":" ++ r)

/-- Fuelled renderer for `ExprSymbol`. -/
def ExprSymbol.fmtFuel : Nat → ExprSymbol → Option String
  | 0, _ => none
  | n + 1, .mk _ syms =>
      (Symbol.fmtFuelList n syms).map (fun rs => "(" ++ sepFmt " " rs ++ ")")

/-- Fuelled renderer for `MacroSymbol`. -/
def MacroSymbol.fmtFuel : Nat → MacroSymbol → Option String
  | 0, _ => none
  | n + 1, .mk nm args _ =>
      (Symbol.fmtFuelList n args).map (fun rs => nm ++ "<" ++ sepFmt ", " rs ++ ">")

/-- Fuelled renderer for `RepeatSymbol`. -/
def RepeatSymbol.fmtFuel : Nat → RepeatSymbol → Option String
  | 0, _ => none
  | n + 1, .mk op s => (Symbol.fmtFuel n s).map (fun r => r ++ op.fmt)

/-- Fuelled renderer for a list of symbols. -/
def Symbol.fmtFuelList : Nat → List Symbol → Option (List String)
  | 0, _ => none
  | _ + 1, [] => some []
  | n + 1, s :: ss => do
      let r ← Symbol.fmtFuel n s
      let rs ← Symbol.fmtFuelList n ss
      pure (r :: rs)

end

mutual

/-- Node count of a `TypeRef` tree. -/
def TypeRef.size : TypeRef → Nat
  | .Tuple ts => TypeRef.sizeList ts + 1
  | .Nominal _ ts => TypeRef.sizeList ts + 1
  | .Lifetime _ => 1
  | .Id _ => 1
  | .OfSymbol s => s.size + 1

/-- Node count of a list of `TypeRef`s. -/
def TypeRef.sizeList : List TypeRef → Nat
  | [] => 1
  | t :: ts => t.size + TypeRef.sizeList ts + 1

end

mutual

/-- Fuelled renderer for `TypeRef`. -/
def TypeRef.fmtFuel : Nat → TypeRef → Option String
  | 0, _ => none
  | n + 1, .Tuple ts =>
      (TypeRef.fmtFuelList n ts).map (fun rs => "(" ++ sepFmt ", " rs ++ ")")
  | n + 1, .Nominal path ts =>
      if ts.length = 0 then some (sepFmt "::" path)
      else (TypeRef.fmtFuelList n ts).map
        (fun rs => sepFmt "::" path ++ "<" ++ sepFmt ", " rs ++ ">")
  | _ + 1, .Lifetime s => some s
  | _ + 1, .Id s => some s
  | n + 1, .OfSymbol s => (Symbol.fmtFuel n s).map (fun r => "`" ++ r ++ "`")

/-- Fuelled renderer for a list of `TypeRef`s. -/
def TypeRef.fmtFuelList : Nat → List TypeRef → Option (List String)
  | 0, _ => none
  | _ + 1, [] => some []
  | n + 1, t :: ts => do
      let r ← TypeRef.fmtFuel n t
      let rs ← TypeRef.fmtFuelList n ts
      pure (r :: rs)

end

/-- `NonterminalData::is_macro_def`: `!self.args.is_empty()`. -/
def NonterminalData.is_macro_def (d : NonterminalData) : Bool :=
  !d.args.isEmpty

/-- `GrammarItem::is_macro_def`: delegates to the nonterminal, false
otherwise. -/
def GrammarItem.is_macro_def : GrammarItem → Bool
  | .Nonterminal d => d.is_macro_def
  | _ => false

theorem intercalate_go_eq_foldl (s : String) :
    ∀ (xs : List String) (acc : String),
      String.intercalate.go acc s xs = xs.foldl (fun a e => a ++ s ++ e) acc := by
  intro xs
  induction xs with
  | nil => intro acc; simp [String.intercalate.go]
  | cons x xs ih => intro acc; simp [String.intercalate.go, ih]

/-- The `Sep` helper joins exactly like `String.intercalate`. -/
theorem sepFmt_eq_intercalate (s : String) (l : List String) :
    sepFmt s l = String.intercalate s l := by
  cases l with
  | nil => rfl
  | cons x xs => simp [sepFmt, String.intercalate, intercalate_go_eq_foldl]

theorem fmtList_eq_map : ∀ l : List Symbol, Symbol.fmtList l = l.map Symbol.fmt
  | [] => rfl
  | s :: ss => by rw [Symbol.fmtList, List.map_cons, fmtList_eq_map ss]

theorem fmtListT_eq_map : ∀ l : List TypeRef, TypeRef.fmtList l = l.map TypeRef.fmt
  | [] => rfl
  | t :: ts => by rw [TypeRef.fmtList, List.map_cons, fmtListT_eq_map ts]

theorem canonical_form_eq_fmt : Symbol.canonical_form = Symbol.fmt := rfl

mutual

theorem symbol_fmt_mapSpans (f : Span → Span) :
    ∀ s : Symbol, (s.mapSpans f).fmt = s.fmt
  | .Expr e => by rw [Symbol.mapSpans, Symbol.fmt, Symbol.fmt, Exprsymbol_fmt_mapSpans f e]
  | .Terminal s => rfl
  | .Nonterminal s => rfl
  | .Macro m => by rw [Symbol.mapSpans, Symbol.fmt, Symbol.fmt, Macrosymbol_fmt_mapSpans f m]
  | .Repeat r => by rw [Symbol.mapSpans, Symbol.fmt, Symbol.fmt, Repeatsymbol_fmt_mapSpans f r]
  | .Choose s => by rw [Symbol.mapSpans, Symbol.fmt, Symbol.fmt, symbol_fmt_mapSpans f s]
  | .Name n s => by rw [Symbol.mapSpans, Symbol.fmt, Symbol.fmt, symbol_fmt_mapSpans f s]

theorem Exprsymbol_fmt_mapSpans (f : Span → Span) :
    ∀ e : ExprSymbol, (e.mapSpans f).fmt = e.fmt
  | .mk sp syms => by
      rw [ExprSymbol.mapSpans, ExprSymbol.fmt, ExprSymbol.fmt,
        symbol_fmtList_mapSpans f syms]

theorem Macrosymbol_fmt_mapSpans (f : Span → Span) :
    ∀ m : MacroSymbol, (m.mapSpans f).fmt = m.fmt
  | .mk n args sp => by
      rw [MacroSymbol.mapSpans, MacroSymbol.fmt, MacroSymbol.fmt,
        symbol_fmtList_mapSpans f args]

theorem Repeatsymbol_fmt_mapSpans (f : Span → Span) :
    ∀ r : RepeatSymbol, (r.mapSpans f).fmt = r.fmt
  | .mk op s => by
      rw [RepeatSymbol.mapSpans, RepeatSymbol.fmt, RepeatSymbol.fmt,
        symbol_fmt_mapSpans f s]

theorem symbol_fmtList_mapSpans (f : Span → Span) :
    ∀ l : List Symbol, Symbol.fmtList (Symbol.mapSpansList f l) = Symbol.fmtList l
  | [] => rfl
  | s :: ss => by
      rw [Symbol.mapSpansList, Symbol.fmtList, Symbol.fmtList,
        symbol_fmt_mapSpans f s, symbol_fmtList_mapSpans f ss]

end

theorem symbol_size_pos (s : Symbol) : 1 ≤ s.size := by
  cases s <;> simp [Symbol.size]

theorem Exprsymbol_size_pos (e : ExprSymbol) : 1 ≤ e.size := by
  cases e
  simp [ExprSymbol.size]

theorem Macrosymbol_size_pos (m : MacroSymbol) : 1 ≤ m.size := by
  cases m
  simp [MacroSymbol.size]

theorem Repeatsymbol_size_pos (r : RepeatSymbol) : 1 ≤ r.size := by
  cases r
  simp [RepeatSymbol.size]

theorem typeRef_size_pos (t : TypeRef) : 1 ≤ t.size := by
  cases t <;> simp [TypeRef.size]

mutual

theorem symbol_fmtFuel_complete :
    ∀ (n : Nat) (s : Symbol), s.size ≤ n → Symbol.fmtFuel n s = some s.fmt
  | 0, s, h => absurd h (by have := symbol_size_pos s; omega)
  | n + 1, .Expr e, h => by
      simp only [Symbol.fmtFuel, Symbol.fmt]
      exact Exprsymbol_fmtFuel_complete n e (by simp [Symbol.size] at h; omega)
  | _ + 1, .Terminal s, _ => rfl
  | _ + 1, .Nonterminal s, _ => rfl
  | n + 1, .Macro m, h => by
      simp only [Symbol.fmtFuel, Symbol.fmt]
      exact Macrosymbol_fmtFuel_complete n m (by simp [Symbol.size] at h; omega)
  | n + 1, .Repeat r, h => by
      simp only [Symbol.fmtFuel, Symbol.fmt]
      exact Repeatsymbol_fmtFuel_complete n r (by simp [Symbol.size] at h; omega)
  | n + 1, .Choose s, h => by
      simp only [Symbol.fmtFuel, Symbol.fmt]
      rw [symbol_fmtFuel_complete n s (by simp [Symbol.size] at h; omega)]
      rfl
  | n + 1, .Name nm s, h => by
      simp only [Symbol.fmtFuel, Symbol.fmt]
      rw [symbol_fmtFuel_complete n s (by simp [Symbol.size] at h; omega)]
      rfl

theorem Exprsymbol_fmtFuel_complete :
    ∀ (n : Nat) (e : ExprSymbol), e.size ≤ n → ExprSymbol.fmtFuel n e = some e.fmt
  | 0, e, h => absurd h (by have := Exprsymbol_size_pos e; omega)
  | n + 1, .mk sp syms, h => by
      simp only [ExprSymbol.fmtFuel, ExprSymbol.fmt]
      rw [symbol_fmtFuelList_complete n syms (by simp [ExprSymbol.size] at h; omega)]
      rfl

theorem Macrosymbol_fmtFuel_complete :
    ∀ (n : Nat) (m : MacroSymbol), m.size ≤ n → MacroSymbol.fmtFuel n m = some m.fmt
  | 0, m, h => absurd h (by have := Macrosymbol_size_pos m; omega)
  | n + 1, .mk nm args sp, h => by
      simp only [MacroSymbol.fmtFuel, MacroSymbol.fmt]
      rw [symbol_fmtFuelList_complete n args (by simp [MacroSymbol.size] at h; omega)]
      rfl

theorem Repeatsymbol_fmtFuel_complete :
    ∀ (n : Nat) (r : RepeatSymbol), r.size ≤ n → RepeatSymbol.fmtFuel n r = some r.fmt
  | 0, r, h => absurd h (by have := Repeatsymbol_size_pos r; omega)
  | n + 1, .mk op s, h => by
      simp only [RepeatSymbol.fmtFuel, RepeatSymbol.fmt]
      rw [symbol_fmtFuel_complete n s (by simp [RepeatSymbol.size] at h; omega)]
      rfl

theorem symbol_fmtFuelList_complete :
    ∀ (n : Nat) (l : List Symbol),
      Symbol.sizeList l ≤ n → Symbol.fmtFuelList n l = some (Symbol.fmtList l)
  | 0, l, h => absurd h (by cases l <;> simp [Symbol.sizeList])
  | _ + 1, [], _ => rfl
  | n + 1, s :: ss, h => by
      have hs : s.size ≤ n := by
        simp [Symbol.sizeList] at h; omega
      have hss : Symbol.sizeList ss ≤ n := by
        simp [Symbol.sizeList] at h; omega
      simp only [Symbol.fmtFuelList, Symbol.fmtList]
      rw [symbol_fmtFuel_complete n s hs, symbol_fmtFuelList_complete n ss hss]
      rfl

end

mutual

theorem typeRef_fmtFuel_complete :
    ∀ (n : Nat) (t : TypeRef), t.size ≤ n → TypeRef.fmtFuel n t = some t.fmt
  | 0, t, h => absurd h (by have := typeRef_size_pos t; omega)
  | n + 1, .Tuple ts, h => by
      simp only [TypeRef.fmtFuel, TypeRef.fmt]
      rw [typeRef_fmtFuelList_complete n ts (by simp [TypeRef.size] at h; omega)]
      rfl
  | n + 1, .Nominal path ts, h => by
      cases ts with
      | nil => simp [TypeRef.fmtFuel, TypeRef.fmt]
      | cons t ts2 =>
          simp only [TypeRef.fmtFuel, TypeRef.fmt]
          rw [typeRef_fmtFuelList_complete n (t :: ts2)
            (by simp [TypeRef.size] at h; omega)]
          simp
  | _ + 1, .Lifetime s, _ => rfl
  | _ + 1, .Id s, _ => rfl
  | n + 1, .OfSymbol s, h => by
      simp only [TypeRef.fmtFuel, TypeRef.fmt]
      rw [symbol_fmtFuel_complete n s (by simp [TypeRef.size] at h; omega)]
      rfl

theorem typeRef_fmtFuelList_complete :
    ∀ (n : Nat) (l : List TypeRef),
      TypeRef.sizeList l ≤ n → TypeRef.fmtFuelList n l = some (TypeRef.fmtList l)
  | 0, l, h => absurd h (by cases l <;> simp [TypeRef.sizeList])
  | _ + 1, [], _ => rfl
  | n + 1, t :: ts, h => by
      have ht : t.size ≤ n := by
        simp [TypeRef.sizeList] at h; omega
      have hts : TypeRef.sizeList ts ≤ n := by
        simp [TypeRef.sizeList] at h; omega
      simp only [TypeRef.fmtFuelList, TypeRef.fmtList]
      rw [typeRef_fmtFuel_complete n t ht, typeRef_fmtFuelList_complete n ts hts]
      rfl

end

/-- Claim C1: for every `Symbol` tree, `canonical_form` satisfies the
per-variant rendering equations: a `Terminal` renders as its literal wrapped
in double quotes; a `Nonterminal` renders as the bare text; an `Expr` renders
as the renderings of its children joined by single spaces and wrapped in
parentheses; a `Repeat` renders as the rendering of its symbol immediately
followed by the operator glyph (`*` for `Star`, `+` for `Plus`, `?` for
`Question`); a `Choose` renders as `~` followed by the rendering of its
symbol; a `Name` renders as `~`, the name, `:`, then the rendering of its
symbol; a `Macro` renders as the macro name, `<`, the argument renderings
joined by comma-space, then `>`. -/
theorem symbol_rendering_equations :
    (∀ s : String, (Symbol.Terminal s).canonical_form = "\"" ++ s ++ "\"") ∧
    (∀ s : String, (Symbol.Nonterminal s).canonical_form = s) ∧
    (∀ e : ExprSymbol, (Symbol.Expr e).canonical_form =
      "(" ++ String.intercalate " " (e.symbols.map Symbol.canonical_form) ++ ")") ∧
    (∀ s : Symbol,
      (Symbol.Repeat (RepeatSymbol.mk RepeatOp.Star s)).canonical_form =
        s.canonical_form ++ "*") ∧
    (∀ s : Symbol,
      (Symbol.Repeat (RepeatSymbol.mk RepeatOp.Plus s)).canonical_form =
        s.canonical_form ++ "+") ∧
    (∀ s : Symbol,
      (Symbol.Repeat (RepeatSymbol.mk RepeatOp.Question s)).canonical_form =
        s.canonical_form ++ "?") ∧
    (∀ s : Symbol, (Symbol.Choose s).canonical_form = "~" ++ s.canonical_form) ∧
    (∀ (n : String) (s : Symbol),
      (Symbol.Name n s).canonical_form = "~" ++ n ++ ":" ++ s.canonical_form) ∧
    (∀ m : MacroSymbol, (Symbol.Macro m).canonical_form =
      m.name ++ "<" ++ String.intercalate ", " (m.args.map Symbol.canonical_form) ++ ">") := by
  refine ⟨fun s => rfl, fun s => rfl, fun e => ?_, fun s => rfl, fun s => rfl, fun s => rfl,
    fun s => rfl, fun n s => rfl, fun m => ?_⟩
  · cases e with
    | mk sp syms =>
      simp [Symbol.canonical_form, Symbol.fmt, ExprSymbol.fmt, fmtList_eq_map,
        sepFmt_eq_intercalate, ExprSymbol.symbols, canonical_form_eq_fmt]
  · cases m with
    | mk n args sp =>
      simp [Symbol.canonical_form, Symbol.fmt, MacroSymbol.fmt, fmtList_eq_map,
        sepFmt_eq_intercalate, MacroSymbol.name, MacroSymbol.args, canonical_form_eq_fmt]

/-- Claim C2: for every `TypeRef`, the rendering satisfies the per-variant
equations: a `Tuple` renders as the component renderings joined by
comma-space and wrapped in parentheses; a `Nominal` renders as the path
segments joined by `::`, followed by an angle-bracketed comma-space-joined
type-argument list exactly when the argument list is non-empty; `Lifetime`
and `Id` render as bare text; `OfSymbol` renders as the canonical form of the
wrapped symbol surrounded by backticks. -/
theorem typeref_rendering_equations :
    (∀ ts : List TypeRef,
      (TypeRef.Tuple ts).fmt = "(" ++ String.intercalate ", " (ts.map TypeRef.fmt) ++ ")") ∧
    (∀ path : List String, (TypeRef.Nominal path []).fmt = String.intercalate "::" path) ∧
    (∀ (path : List String) (ts : List TypeRef), ts ≠ [] →
      (TypeRef.Nominal path ts).fmt = String.intercalate "::" path ++ "<" ++
        String.intercalate ", " (ts.map TypeRef.fmt) ++ ">") ∧
    (∀ s : String, (TypeRef.Lifetime s).fmt = s) ∧
    (∀ s : String, (TypeRef.Id s).fmt = s) ∧
    (∀ s : Symbol, (TypeRef.OfSymbol s).fmt = "`" ++ s.canonical_form ++ "`") := by
  refine ⟨fun ts => ?_, fun path => ?_, fun path ts h => ?_, fun s => rfl, fun s => rfl,
    fun s => rfl⟩
  · simp [TypeRef.fmt, fmtListT_eq_map, sepFmt_eq_intercalate]
  · simp [TypeRef.fmt, sepFmt_eq_intercalate]
  · rw [TypeRef.fmt]
    simp [List.length_eq_zero, h, fmtListT_eq_map, sepFmt_eq_intercalate]

/-- Witness for claim C2: the non-empty-argument equation applied to the
concrete type `parser::Token<T>`. -/
theorem typeref_rendering_equations_witness :
    ([TypeRef.Id "T"] : List TypeRef) ≠ [] ∧
    (TypeRef.Nominal ["parser", "Token"] [TypeRef.Id "T"]).fmt =
      String.intercalate "::" ["parser", "Token"] ++ "<" ++
        String.intercalate ", " ([TypeRef.Id "T"].map TypeRef.fmt) ++ ">" :=
  ⟨by simp, typeref_rendering_equations.2.2.1 ["parser", "Token"] [TypeRef.Id "T"] (by simp)⟩

/-- Claim C3: canonical forms are independent of source spans: two symbol
trees that agree after every span field is rewritten to a fixed value render
identically, and in particular two `MacroSymbol` or `ExprSymbol` values that
differ only in their span fields yield byte-identical canonical forms. -/
theorem canonical_form_span_independence :
    (∀ s1 s2 : Symbol,
      s1.mapSpans (fun _ => Span.mk 0 0) = s2.mapSpans (fun _ => Span.mk 0 0) →
      s1.canonical_form = s2.canonical_form) ∧
    (∀ (n : String) (args : List Symbol) (sp1 sp2 : Span),
      (MacroSymbol.mk n args sp1).canonical_form =
        (MacroSymbol.mk n args sp2).canonical_form) ∧
    (∀ (syms : List Symbol) (sp1 sp2 : Span),
      (ExprSymbol.mk sp1 syms).canonical_form =
        (ExprSymbol.mk sp2 syms).canonical_form) := by
  refine ⟨fun s1 s2 h => ?_, fun n args sp1 sp2 => rfl, fun syms sp1 sp2 => rfl⟩
  have h1 := symbol_fmt_mapSpans (fun _ => Span.mk 0 0) s1
  have h2 := symbol_fmt_mapSpans (fun _ => Span.mk 0 0) s2
  calc s1.canonical_form = (s1.mapSpans (fun _ => Span.mk 0 0)).fmt := h1.symm
    _ = (s2.mapSpans (fun _ => Span.mk 0 0)).fmt := by rw [h]
    _ = s2.canonical_form := h2

/-- Witness for claim C3: two expression groups differing only in span render
identically. -/
theorem canonical_form_span_independence_witness :
    ((Symbol.Expr (ExprSymbol.mk (Span.mk 1 2) [Symbol.Nonterminal "A"])).mapSpans
        (fun _ => Span.mk 0 0) =
      (Symbol.Expr (ExprSymbol.mk (Span.mk 3 4) [Symbol.Nonterminal "A"])).mapSpans
        (fun _ => Span.mk 0 0)) ∧
    (Symbol.Expr (ExprSymbol.mk (Span.mk 1 2) [Symbol.Nonterminal "A"])).canonical_form =
      (Symbol.Expr (ExprSymbol.mk (Span.mk 3 4) [Symbol.Nonterminal "A"])).canonical_form :=
  ⟨rfl, canonical_form_span_independence.1 _ _ rfl⟩

/-- Claim C4, counterexample: the tree
`Name("v", Repeat(Star, Expr([Choose(Nonterminal("E")), Terminal(",")])))`
does not render as the string stated by the claim (the
`Choose(Nonterminal("E"))` child renders as `~E`, not as a quoted
terminal). -/
theorem name_repeat_render_counterexample :
    (Symbol.Name "v" (Symbol.Repeat (RepeatSymbol.mk RepeatOp.Star
      (Symbol.Expr (ExprSymbol.mk (Span.mk 0 0)
        [Symbol.Choose (Symbol.Nonterminal "E"), Symbol.Terminal ","]))))).canonical_form ≠
    "~v:(\"E\" \",\")*" := by decide

/-- Claim C4 as amended: the tree
`Name("v", Repeat(Star, Expr([Choose(Nonterminal("E")), Terminal(",")])))`
has canonical form exactly the string whose characters are tilde, `v`, colon,
an open parenthesis, tilde, `E`, space, a double-quoted comma, a close
parenthesis and a star, for any span value in the `Expr` node. -/
theorem name_repeat_render_amended (sp : Span) :
    (Symbol.Name "v" (Symbol.Repeat (RepeatSymbol.mk RepeatOp.Star
      (Symbol.Expr (ExprSymbol.mk sp
        [Symbol.Choose (Symbol.Nonterminal "E"), Symbol.Terminal ","]))))).canonical_form =
    "~v:(~E \",\")*" := by
  simp [Symbol.canonical_form, Symbol.fmt, ExprSymbol.fmt, RepeatSymbol.fmt, RepeatOp.fmt,
    Symbol.fmtList, sepFmt]

/-- Claim C5: `is_macro_def` on a `NonterminalData` is true exactly when the
macro-parameter list is non-empty, and on a `GrammarItem` it is false for
every `TokenType` and delegates to the nonterminal otherwise. -/
theorem is_macro_def_spec :
    (∀ d : NonterminalData, d.is_macro_def = true ↔ d.args ≠ []) ∧
    (∀ t : TokenTypeData, (GrammarItem.TokenType t).is_macro_def = false) ∧
    (∀ d : NonterminalData, (GrammarItem.Nonterminal d).is_macro_def = d.is_macro_def) :=
  ⟨fun d => by simp [NonterminalData.is_macro_def], fun t => rfl, fun d => rfl⟩

/-- Claim C6: `canonical_form` is deterministic: structurally equal symbol
trees yield byte-identical strings (the renderer is a pure function of the
tree and holds no mutable state). -/
theorem canonical_form_deterministic (s1 s2 : Symbol) (h : s1 = s2) :
    s1.canonical_form = s2.canonical_form := by rw [h]

/-- Witness for claim C6: determinism applied at a concrete tree. -/
theorem canonical_form_deterministic_witness :
    (Symbol.Nonterminal "A" = Symbol.Nonterminal "A") ∧
    (Symbol.Nonterminal "A").canonical_form = (Symbol.Nonterminal "A").canonical_form :=
  ⟨rfl, canonical_form_deterministic (Symbol.Nonterminal "A") (Symbol.Nonterminal "A") rfl⟩

/-- Claim C7: `canonical_form` is not injective: there are two structurally
distinct symbol trees with byte-equal canonical forms (here
`Choose(Nonterminal("E"))` and `Nonterminal("~E")`, both rendering `~E`). -/
theorem canonical_form_not_injective :
    ∃ s1 s2 : Symbol, s1 ≠ s2 ∧ s1.canonical_form = s2.canonical_form :=
  ⟨Symbol.Choose (Symbol.Nonterminal "E"), Symbol.Nonterminal "~E",
    fun h => by injection h, rfl⟩

/-- Claim C8: rendering is total: for every finite `Symbol`, `ExprSymbol`,
`MacroSymbol` or `TypeRef` tree, the fuelled renderer (which models the
recursion of the `Display` impls with an explicit depth budget) succeeds for
some finite fuel and returns exactly the canonical form. -/
theorem rendering_total :
    (∀ s : Symbol, ∃ n : Nat, Symbol.fmtFuel n s = some s.canonical_form) ∧
    (∀ e : ExprSymbol, ∃ n : Nat, ExprSymbol.fmtFuel n e = some e.canonical_form) ∧
    (∀ m : MacroSymbol, ∃ n : Nat, MacroSymbol.fmtFuel n m = some m.canonical_form) ∧
    (∀ t : TypeRef, ∃ n : Nat, TypeRef.fmtFuel n t = some t.fmt) :=
  ⟨fun s => ⟨s.size, symbol_fmtFuel_complete s.size s le_rfl⟩,
   fun e => ⟨e.size, Exprsymbol_fmtFuel_complete e.size e le_rfl⟩,
   fun m => ⟨m.size, Macrosymbol_fmtFuel_complete m.size m le_rfl⟩,
   fun t => ⟨t.size, typeRef_fmtFuel_complete t.size t le_rfl⟩⟩

/-- Claim C9: the three `canonical_form` entry points agree on shared shapes:
rendering an `ExprSymbol` or `MacroSymbol` standalone gives the same string
as rendering it embedded as a `Symbol`. -/
theorem canonical_form_entry_points_agree :
    (∀ e : ExprSymbol, (Symbol.Expr e).canonical_form = e.canonical_form) ∧
    (∀ m : MacroSymbol, (Symbol.Macro m).canonical_form = m.canonical_form) :=
  ⟨fun _ => rfl, fun _ => rfl⟩

/-- Claim C10: a macro invocation with an empty argument list still renders
its angle brackets, an expression group with no symbols renders as a bare
pair of parentheses, while a `Nominal` type with an empty type-argument list
renders with no angle brackets at all. -/
theorem empty_args_rendering :
    (∀ (n : String) (sp : Span), (MacroSymbol.mk n [] sp).canonical_form = n ++ "<>") ∧
    (∀ sp : Span, (ExprSymbol.mk sp []).canonical_form = "()") ∧
    (∀ path : List String, (TypeRef.Nominal path []).fmt = String.intercalate "::" path) := by
  refine ⟨fun n sp => ?_, fun sp => rfl, fun path => ?_⟩
  · simp [MacroSymbol.canonical_form, MacroSymbol.fmt, Symbol.fmtList, sepFmt]
    rw [String.append_assoc]
    rfl
  · simp [TypeRef.fmt, sepFmt_eq_intercalate]

end ParseTree
